import Mathlib

/-!
Verification of the fjarsyn screen-sharing core against its specification.

This file is a shallow embedding, in Lean 4, of the parts of the fjarsyn
repository that the checked properties talk about:

* the signaling message type and the relay routing loop
  (`shared/src/lib.rs`, `bifrost/src/signaling_server.rs`);
* the WebRTC call state machine (`src/networking/webrtc/webrtc.rs`) and the
  UI-side event handler (`src/ui/app.rs`);
* the WGC capture provider: its staging-texture ring, the frame callback's
  bounded-channel backpressure, and the start/stop state errors
  (`src/capture_providers/windows/wgc_capture_provider.rs`);
* the buffer pool (`src/utils/buffer_pool.rs`) and the buffer arena
  (`src/utils/buffer_arena.rs`), the latter including a model of the
  `bytes::BytesMut` operations (`split_to`, `unsplit`, `reserve`,
  `extend_from_slice`) that the arena is built on.

Rust machine integers are embedded as `Nat` with explicit `% 2 ^ 64`
arithmetic where wrap-around matters.  Fallible operations return values in
`Except` / `Option`.  Each definition is translated from the corresponding
source item; doc comments name the file and function being embedded.
-/

namespace Fjarsyn

/-! ## Signaling messages (`shared/src/lib.rs`) -/

/-- Embeds `SignalingType` from `shared/src/lib.rs`. -/
inductive SignalingType where
  | Offer
  | Answer
  | Candidate
  | Identity
  deriving DecidableEq, Repr

/-- Embeds `SignalingMessage` from `shared/src/lib.rs`.  The Rust fields `to` and
`from` are Lean keywords/tokens, so they are embedded as `toId` / `fromId`. -/
structure SignalingMessage where
  toId : String
  fromId : String
  sigType : SignalingType
  data : String
  deriving DecidableEq, Repr

/-! ## Relay routing (`bifrost/src/signaling_server.rs`, `handle_socket`)

The relay keeps `peers : HashMap<String, mpsc::Sender<SignalingMessage>>`.
The message loop of `handle_socket` (lines 94–126) first overwrites the
message's `from` field with the connection's registered `peer_id`, then:
if `to` is empty it sends the message to every registered peer other than
the sender; otherwise it sends it only to the peer registered under `to`,
and if no such peer exists it drops the message (logging a warning).

The registry is embedded as the list of registered peer ids (`HashMap`
iteration order is irrelevant to the delivered multiset); a delivery is a
pair of the receiving peer id and the message pushed into its queue. -/

/-- One iteration of the relay's message loop: the deliveries performed for
a single message `msg` arriving on the connection registered as `senderId`,
given the currently registered peer ids `peers`. -/
def routeMessage (peers : List String) (senderId : String)
    (msg : SignalingMessage) : List (String × SignalingMessage) :=
  let m := { msg with fromId := senderId }
  if m.toId = "" then
    (peers.filter (fun p => p ≠ senderId)).map (fun p => (p, m))
  else if peers.contains m.toId then
    [(m.toId, m)]
  else
    []

/-! ## C2: relay routing -/

/-- C2. Relay routing: a message received from `A`'s connection with
`to = ""` is delivered to exactly the other registered peers, each exactly
once, with its `from` field overwritten to `A`'s relay-registered id
regardless of the client-supplied `from`; a message whose target is not
registered is delivered to no one. -/
theorem relay_routing_broadcast_and_unknown_target
    (peers : List String) (A : String) (msg : SignalingMessage)
    (hnodup : peers.Nodup) :
    (msg.toId = "" →
      (∀ p, ((routeMessage peers A msg).map Prod.fst).count p =
        (if p ∈ peers ∧ p ≠ A then 1 else 0)) ∧
      (∀ d ∈ routeMessage peers A msg, d.2.fromId = A)) ∧
    (msg.toId ∉ peers → msg.toId ≠ "" → routeMessage peers A msg = []) := by
  constructor
  · intro hto
    constructor
    · intro p
      simp only [routeMessage, hto, if_true]
      rw [List.map_map]
      have hmap : ∀ c : SignalingMessage, (Prod.fst ∘ fun p : String => (p, c))
          = (id : String → String) := fun c => funext fun x => rfl
      rw [hmap, List.map_id]
      by_cases hp : p ∈ peers ∧ p ≠ A
      · rw [if_pos hp]
        rw [List.count_eq_one_of_mem]
        · exact List.Nodup.filter _ hnodup
        · rw [List.mem_filter]
          exact ⟨hp.1, by simpa using hp.2⟩
      · rw [if_neg hp]
        rw [List.count_eq_zero]
        intro hmem
        rw [List.mem_filter] at hmem
        exact hp ⟨hmem.1, by simpa using hmem.2⟩
    · intro d hd
      simp only [routeMessage, hto, if_true] at hd
      rw [List.mem_map] at hd
      obtain ⟨p, _, rfl⟩ := hd
      rfl
  · intro habs hne
    simp only [routeMessage]
    rw [if_neg hne]
    rw [if_neg (by simpa using habs)]

/-- Witness for C2 at a concrete input: peers `{A, B, C}`, a broadcast from
`A` with a spoofed `from` field is delivered once each to `B` and `C` (and
not to `A`) with `from` rewritten to `A`; a message addressed to the
unregistered id `Z` is delivered to no one. -/
theorem relay_routing_broadcast_and_unknown_target_witness :
    (["A", "B", "C"] : List String).Nodup ∧
    ((("" : String) = "" →
      (∀ p, ((routeMessage ["A", "B", "C"] "A"
          ⟨"", "spoof", SignalingType.Offer, "sdp"⟩).map Prod.fst).count p =
        (if p ∈ ["A", "B", "C"] ∧ p ≠ "A" then 1 else 0)) ∧
      (∀ d ∈ routeMessage ["A", "B", "C"] "A"
          ⟨"", "spoof", SignalingType.Offer, "sdp"⟩, d.2.fromId = "A")) ∧
     (("" : String) ∉ ["A", "B", "C"] → ("" : String) ≠ "" →
      routeMessage ["A", "B", "C"] "A"
          ⟨"", "spoof", SignalingType.Offer, "sdp"⟩ = [])) ∧
    routeMessage ["A", "B", "C"] "A" ⟨"Z", "spoof", SignalingType.Offer, "sdp"⟩
      = [] := by
  refine ⟨by decide, relay_routing_broadcast_and_unknown_target ["A", "B", "C"] "A"
    ⟨"", "spoof", SignalingType.Offer, "sdp"⟩ (by decide), ?_⟩
  rfl

/-! ## Staging pipeline (`src/capture_providers/windows/wgc_capture_provider.rs`)

`WgcCaptureProvider` keeps `Staging { textures, frame_count, width, height }`
behind an `RwLock`.  `ensure_staging_state` (lines 204–246) recreates the
texture ring and resets `frame_count` to 0 whenever the ring is empty or the
observed dimensions changed.  `process_frame` (lines 144–162) then

1. copies the arriving frame into `textures[frame_count % PIPELINE_DEPTH]`,
2. unconditionally reads back
   `textures[(frame_count.wrapping_sub(1)) as usize % PIPELINE_DEPTH]`
   (there is no `frame_count >= 1` guard in the source), and
3. increments `frame_count`.

A texture's GPU contents are abstracted as `Option Nat`: `some i` when the
copy step of frame `i` last wrote it, `none` when it was created by
`CreateTexture2D` and never written (its contents are uninitialized).
`frame_count : u64` is embedded as a `Nat` reduced mod `2 ^ 64`. -/

/-- Embeds `WgcCaptureProvider::PIPELINE_DEPTH`. -/
def PIPELINE_DEPTH : Nat := 2

/-- The modulus of Rust u64 arithmetic, `2 ^ 64`. -/
def U64_SIZE : Nat := 2 ^ 64

/-- The `Staging` struct of `wgc_capture_provider.rs` (lines 42–48), with
texture contents abstracted to the frame number that last wrote them. -/
structure Staging where
  textures : List (Option Nat)
  frameCount : Nat
  width : Nat
  height : Nat
  deriving DecidableEq, Repr

/-- Embeds `Staging::default()`: empty ring, zero counter and dimensions. -/
def Staging.initial : Staging := ⟨[], 0, 0, 0⟩

/-- Embeds `WgcCaptureProvider::ensure_staging_state` (lines 204–246): recreate the
ring of `PIPELINE_DEPTH` fresh (never-written) textures and reset
`frame_count` when the ring is empty or the frame dimensions changed. -/
def ensureStagingState (st : Staging) (w h : Nat) : Staging :=
  if st.textures.isEmpty ∨ st.width ≠ w ∨ st.height ≠ h then
    { textures := List.replicate PIPELINE_DEPTH none
      frameCount := 0
      width := w
      height := h }
  else st

/-- Observable staging effects of one `process_frame` call. -/
structure ProcessOut where
  writeIdx : Nat
  readIdx : Nat
  readAttempted : Bool
  readContent : Option Nat
  deriving DecidableEq, Repr

/-- The staging steps of `WgcCaptureProvider::process_frame`
(lines 144–162) on a frame of dimensions `w × h` whose contents are
identified by `frameId`: ensure the staging state, copy into the write
texture, read back the read texture (the readback is unconditional in the
source — `map_read_texture` at line 154 is not guarded on `frame_count`),
and increment `frame_count` with `u64` wrap-around.
`readIdx` embeds `(frame_count.wrapping_sub(1)) as usize % PIPELINE_DEPTH`.
The write and read indices differ (ring depth 2), so reading after the
write models the source's read of a distinct texture. -/
def wgcProcessFrame (st : Staging) (w h frameId : Nat) : Staging × ProcessOut :=
  let st := ensureStagingState st w h
  let writeIdx := st.frameCount % PIPELINE_DEPTH
  let textures := st.textures.set writeIdx (some frameId)
  let readIdx := (st.frameCount + (U64_SIZE - 1)) % U64_SIZE % PIPELINE_DEPTH
  let readContent := (textures.getD readIdx none)
  ({ st with textures := textures, frameCount := (st.frameCount + 1) % U64_SIZE },
   { writeIdx := writeIdx
     readIdx := readIdx
     readAttempted := true
     readContent := readContent })

/-! ## C1: staging warm-up

The specification claims that for `frame_count = 0` no read is attempted and
the first processed frame yields no output.  In the source the readback is
unconditional: at `frame_count = 0` the read index evaluates to
`(0u64.wrapping_sub(1)) as usize % 2 = 1`, and `textures[1]` has never been
written, so the first processed frame reads an uninitialized staging texture
and an output frame is still produced.  The code contradicts the documented
warm-up design; this is recorded as a code bug, and the theorem below
evaluates the embedded code at the failing input. -/

/-- Supporting evidence for the part of the staging claim that does hold:
from frame 1 on, each readback returns exactly the frame copied one step
earlier (here frames 100, 101, 102: the reads yield nothing, then 100,
then 101). -/
theorem staging_pipeline_one_step_behind_after_warmup :
    (wgcProcessFrame Staging.initial 1920 1080 100).2.readContent = none ∧
    (wgcProcessFrame (wgcProcessFrame Staging.initial 1920 1080 100).1
        1920 1080 101).2.readContent = some 100 ∧
    (wgcProcessFrame (wgcProcessFrame (wgcProcessFrame Staging.initial
        1920 1080 100).1 1920 1080 101).1 1920 1080 102).2.readContent
      = some 101 := by
  refine ⟨?_, ?_, ?_⟩ <;> decide

/-- C1. Evaluation at the failing input (`frame_count = 0`, the first
frame after staging initialization): a readback *is* attempted, from ring
index 1, and it reads a texture whose content is uninitialized (`none` — no
copy step ever wrote it), contradicting the claim that no read is attempted
and the first processed frame yields no output. -/
theorem staging_first_frame_reads_uninitialized_texture :
    (wgcProcessFrame Staging.initial 1920 1080 42).2.readAttempted = true ∧
    (wgcProcessFrame Staging.initial 1920 1080 42).2.readIdx = 1 ∧
    (wgcProcessFrame Staging.initial 1920 1080 42).2.readContent = none := by
  refine ⟨rfl, ?_, ?_⟩ <;> decide

/-! ## Capture backpressure (`wgc_capture_provider.rs`, lines 190–199)

`process_frame` pushes the produced `Frame` with
`tx.try_send(frame)` on a `tokio::sync::mpsc` bounded channel:
`Ok` and `Err(Full)` both complete the callback successfully (`Full` merely
logs and drops the newly produced frame); `Err(Closed)` returns the typed
`FrameSenderClosed` error. -/

/-- The typed error enum `WindowsCaptureError`
(`src/capture_providers/windows/error.rs`), restricted to the variants the
embedded operations produce. -/
inductive WindowsCaptureError where
  | AlreadyCapturing
  | NotCapturing
  | NoCaptureItem
  | FailedToStartCapture
  | FrameSenderClosed
  deriving DecidableEq, Repr

/-- A `tokio::sync::mpsc` bounded channel: FIFO queue with a fixed capacity
and a closed flag. -/
structure BoundedChannel (α : Type) where
  cap : Nat
  queue : List α
  closed : Bool

/-- Result alternatives of `tokio`'s `Sender::try_send`. -/
inductive TrySendOutcome where
  | sent
  | full
  | closedCh
  deriving DecidableEq, Repr

/-- Embeds `tokio::sync::mpsc::Sender::try_send`: non-blocking; appends to the
queue when there is room, otherwise reports `Full` (or `Closed`) and leaves
the channel unchanged. -/
def BoundedChannel.trySend {α : Type} (c : BoundedChannel α) (x : α) :
    BoundedChannel α × TrySendOutcome :=
  if c.closed then (c, .closedCh)
  else if c.queue.length < c.cap then
    ({ c with queue := c.queue ++ [x] }, .sent)
  else (c, .full)

/-- The send step at the end of `WgcCaptureProvider::process_frame`
(lines 190–199): `try_send`; on `Full` the frame is dropped and the callback
still returns `Ok(())`; on `Closed` it returns `Err(FrameSenderClosed)`. -/
def processFrameSend {α : Type} (tx : BoundedChannel α) (frame : α) :
    BoundedChannel α × Except WindowsCaptureError Unit :=
  match tx.trySend frame with
  | (tx', .sent) => (tx', .ok ())
  | (tx', .closedCh) => (tx', .error .FrameSenderClosed)
  | (tx', .full) => (tx', .ok ())

/-! ## C6: capture backpressure -/

/-- C6. The frame-arrival callback pushes each produced frame with a
non-blocking send: when the channel is full the newly produced (newest)
frame is discarded — the channel is unchanged and the callback returns
successfully — and when there is room the frame is appended. -/
theorem capture_backpressure_drops_newest {α : Type}
    (tx : BoundedChannel α) (frame : α) (hopen : tx.closed = false) :
    (tx.cap ≤ tx.queue.length →
      processFrameSend tx frame = (tx, Except.ok ())) ∧
    (tx.queue.length < tx.cap →
      processFrameSend tx frame =
        ({ tx with queue := tx.queue ++ [frame] }, Except.ok ())) := by
  constructor
  · intro hfull
    simp only [processFrameSend, BoundedChannel.trySend, hopen, Bool.false_eq_true,
      if_false, Nat.not_lt.mpr hfull, if_neg (Nat.not_lt.mpr hfull)]
  · intro hroom
    simp only [processFrameSend, BoundedChannel.trySend, hopen, Bool.false_eq_true,
      if_false, if_pos hroom]

/-- Witness for C6 at a concrete input: the channel of depth
`TX_QUEUE_SIZE = 2` already holding two frames drops the newly produced
frame `9` and reports success; with one slot free it appends. -/
theorem capture_backpressure_drops_newest_witness :
    ((⟨2, [7, 8], false⟩ : BoundedChannel Nat).closed = false) ∧
    ((⟨2, [7, 8], false⟩ : BoundedChannel Nat).cap ≤ [7, 8].length ∧
      processFrameSend (⟨2, [7, 8], false⟩ : BoundedChannel Nat) 9 =
        (⟨2, [7, 8], false⟩, Except.ok ())) := by
  refine ⟨rfl, Nat.le_refl 2, ?_⟩
  exact ((capture_backpressure_drops_newest
    (⟨2, [7, 8], false⟩ : BoundedChannel Nat) 9 rfl).1 (Nat.le_refl 2))

/-! ## Capture start/stop state errors (`wgc_capture_provider.rs`)

`start_capture` (lines 386–406) errors with `AlreadyCapturing` when already
capturing and `NoCaptureItem` when no source is bound, both before any
mutation; otherwise it starts the platform session (when one exists) and
sets `capturing`.  `stop_capture` (lines 408–428) returns `Ok(())`
immediately when not capturing; otherwise it closes the session and frame
pool, drains the stream tokens and clears `capturing`. -/

/-- The `WgcCaptureProvider` session state: presence of the capture item,
session and frame pool (COM handles abstracted to booleans), the registered
stream tokens, and the `capturing` flag. -/
structure WgcProviderState where
  captureItem : Bool
  framePool : Bool
  session : Bool
  streamTokens : List Int
  capturing : Bool
  deriving DecidableEq, Repr

/-- Embeds `WgcCaptureProvider::start_capture` (lines 386–406).  `startOk` is the
outcome of the platform call `session.StartCapture()`, which is only issued
when a session exists. -/
def startCapture (startOk : Bool) (s : WgcProviderState) :
    WgcProviderState × Except WindowsCaptureError Unit :=
  if s.capturing then (s, .error .AlreadyCapturing)
  else if !s.captureItem then (s, .error .NoCaptureItem)
  else if s.session && !startOk then (s, .error .FailedToStartCapture)
  else ({ s with capturing := true }, .ok ())

/-- Embeds `WgcCaptureProvider::stop_capture` (lines 408–428). -/
def stopCapture (s : WgcProviderState) :
    WgcProviderState × Except WindowsCaptureError Unit :=
  if !s.capturing then (s, .ok ())
  else
    ({ s with session := false
              framePool := false
              streamTokens := []
              capturing := false }, .ok ())

/-! ## C7: state errors

The claim that `stop_capture` when not capturing returns a typed
`NotCapturing` error is false for `WgcCaptureProvider` (the provider the
crate exports as `PlatformCaptureProvider`): `stop_capture` returns
`Ok(())` as an idempotent no-op.  The `NotCapturing` variant exists in
`WindowsCaptureError` but is produced only by the dead (not compiled)
`capture.rs` module.  The `start_capture` half of the claim holds. -/

/-- C7 counterexample. On a configured but idle provider, `stop_capture`
returns `Ok(())` — not the claimed `NotCapturing` error (the state is left
unchanged, as the claim says, but the result is a success, not a typed
error). -/
theorem stop_capture_idle_returns_ok :
    stopCapture ⟨true, true, true, [], false⟩ =
      (⟨true, true, true, [], false⟩, Except.ok ()) ∧
    (Except.ok () : Except WindowsCaptureError Unit) ≠
      Except.error WindowsCaptureError.NotCapturing := by
  exact ⟨rfl, fun h => Except.noConfusion h⟩

/-- C7 (amended). Calling `start_capture` while already capturing
returns the typed `AlreadyCapturing` error and leaves the state unchanged;
calling `stop_capture` when not capturing returns `Ok(())` (an idempotent
no-op, not a `NotCapturing` error) and leaves the state unchanged. -/
theorem start_stop_state_errors (startOk : Bool) (s : WgcProviderState) :
    (s.capturing = true →
      startCapture startOk s = (s, Except.error WindowsCaptureError.AlreadyCapturing)) ∧
    (s.capturing = false → stopCapture s = (s, Except.ok ())) := by
  constructor
  · intro hc
    simp only [startCapture, hc, if_true]
  · intro hc
    simp only [stopCapture, hc, Bool.not_false, if_true]

/-- Witness for C7 (amended) at concrete inputs: a capturing provider
refuses `start_capture` with `AlreadyCapturing`, untouched; an idle provider
accepts `stop_capture` as a no-op. -/
theorem start_stop_state_errors_witness :
    ((⟨true, true, true, [3], true⟩ : WgcProviderState).capturing = true ∧
      startCapture true ⟨true, true, true, [3], true⟩ =
        (⟨true, true, true, [3], true⟩,
          Except.error WindowsCaptureError.AlreadyCapturing)) ∧
    ((⟨true, false, false, [], false⟩ : WgcProviderState).capturing = false ∧
      stopCapture ⟨true, false, false, [], false⟩ =
        (⟨true, false, false, [], false⟩, Except.ok ())) := by
  exact ⟨⟨rfl, (start_stop_state_errors true ⟨true, true, true, [3], true⟩).1 rfl⟩,
         ⟨rfl, (start_stop_state_errors true ⟨true, false, false, [], false⟩).2 rfl⟩⟩

/-! ## Buffer pool (`src/utils/buffer_pool.rs`)

`BufferPool::get_or_create` (lines 21–32) pops the next free `Vec<u8>` from
the concurrent `ArrayQueue` *unconditionally* (`pop().unwrap_or_else(..)`);
only afterwards, if the popped buffer's capacity is below the requested
size, it is cleared and `reserve`d up to the requested size.  Buffers are
given identities so that "reuses the popped buffer" and "allocates a fresh
buffer" are distinguishable; `Vec::reserve`'s amortized growth is embedded
as `max (2 * cap) size` (only `cap ≥ size` matters to the properties). -/

/-- A `Vec<u8>` owned by the pool: identity, capacity and length. -/
structure PoolBuffer where
  id : Nat
  cap : Nat
  len : Nat
  deriving DecidableEq, Repr

/-- The pool's free-list (`ArrayQueue<Vec<u8>>`): FIFO with bound
`maxBuffers`; `nextId` numbers fresh allocations. -/
structure BufferPoolState where
  maxBuffers : Nat
  buffers : List PoolBuffer
  nextId : Nat
  deriving DecidableEq, Repr

/-- Embeds `BufferPool::get_or_create` (lines 21–32): pop unconditionally (or
allocate `Vec::with_capacity(size)` if the queue is empty); if the popped
buffer is too small, `clear()` it and `reserve` it up to `size`. -/
def getOrCreate (p : BufferPoolState) (size : Nat) :
    BufferPoolState × PoolBuffer :=
  match p.buffers with
  | [] => ({ p with nextId := p.nextId + 1 }, ⟨p.nextId, size, 0⟩)
  | v :: rest =>
      let v' := if v.cap < size then { v with cap := max (2 * v.cap) size, len := 0 } else v
      ({ p with buffers := rest }, v')

/-- Modelled from the claim's words, for comparison: pop a free buffer
*only if* the popped buffer's capacity is at least `size`, and otherwise
allocate a fresh buffer (leaving the free-list unchanged). -/
def getOrCreateClaimed (p : BufferPoolState) (size : Nat) :
    BufferPoolState × PoolBuffer :=
  match p.buffers with
  | [] => ({ p with nextId := p.nextId + 1 }, ⟨p.nextId, size, 0⟩)
  | v :: rest =>
      if size ≤ v.cap then ({ p with buffers := rest }, v)
      else ({ p with nextId := p.nextId + 1 }, ⟨p.nextId, size, 0⟩)

/-! ## C9: pool allocation policy -/

/-- C9 counterexample. With a single too-small buffer (id 0,
capacity 1) in the free-list and a request of size 2, the code pops that
buffer anyway and grows it — the free-list is left empty and the returned
buffer is the popped one (id 0), not a fresh allocation — whereas the
claimed policy would keep the too-small buffer in the list and return a
fresh buffer (id 1). -/
theorem get_or_create_pops_unconditionally :
    (getOrCreate ⟨4, [⟨0, 1, 0⟩], 1⟩ 2).1.buffers = [] ∧
    (getOrCreate ⟨4, [⟨0, 1, 0⟩], 1⟩ 2).2.id = 0 ∧
    (getOrCreateClaimed ⟨4, [⟨0, 1, 0⟩], 1⟩ 2).1.buffers = [⟨0, 1, 0⟩] ∧
    (getOrCreateClaimed ⟨4, [⟨0, 1, 0⟩], 1⟩ 2).2.id = 1 ∧
    getOrCreate ⟨4, [⟨0, 1, 0⟩], 1⟩ 2 ≠ getOrCreateClaimed ⟨4, [⟨0, 1, 0⟩], 1⟩ 2 := by
  refine ⟨rfl, rfl, rfl, rfl, ?_⟩
  decide

/-- C9 (amended). `get_or_create` pops the next free buffer
unconditionally (the free-list always loses its head); a popped buffer
whose capacity is below `size` is cleared and grown rather than replaced by
a fresh allocation; and in every case the returned buffer has capacity at
least `size`. -/
theorem get_or_create_capacity (p : BufferPoolState) (size : Nat) :
    size ≤ (getOrCreate p size).2.cap ∧
    (getOrCreate p size).1.buffers = p.buffers.tail := by
  match hp : p.buffers with
  | [] =>
      cases p
      simp only at hp
      subst hp
      exact ⟨Nat.le_refl _, rfl⟩
  | v :: rest =>
      cases p
      simp only at hp
      subst hp
      constructor
      · show size ≤ (if v.cap < size then
            ({ v with cap := max (2 * v.cap) size, len := 0 } : PoolBuffer) else v).cap
        by_cases h : v.cap < size
        · rw [if_pos h]
          exact Nat.le_max_right _ _
        · rw [if_neg h]
          exact Nat.le_of_not_lt h
      · rfl

/-! ## Call state machine (`src/networking/webrtc/webrtc.rs`)

`WebRTC` keeps `remote_peer_id` and `local_peer_id` (`Arc<RwLock<Option
<String>>>`).  `handle_signaling_message` (lines 305–376) dispatches on the
message's `sig_type`; the peer-connection collaborator (`webrtc-rs`) is
opaque to the core, so its fallible calls — SDP parsing,
`set_remote_description`, `create_answer`, `set_local_description`,
`add_ice_candidate` — are embedded as an oracle record of outcomes.
Outgoing messages handed to `signaling_tx` and events pushed into
`event_sink` are collected in output lists (an `event_sink.send` failure is
only logged in the source, so raised events are always recorded). -/

/-- Embeds `WebRTCEvent` (webrtc.rs lines 37–41). -/
inductive WebRTCEvent where
  | Connected
  | Disconnected
  | IncomingCall (sender : String)
  deriving DecidableEq, Repr

/-- The `WebRTCError` variants produced by `handle_signaling_message`. -/
inductive WebRTCError where
  | SdpError
  | PeerConnectionError
  | SendError
  | DeserializeError
  deriving DecidableEq, Repr

/-- The call state `handle_signaling_message` reads and writes:
`remote_peer_id` and `local_peer_id`. -/
structure CallState where
  remoteId : Option String
  localId : Option String
  deriving DecidableEq, Repr

/-- Oracle for the opaque peer-connection collaborator: outcomes of the
fallible `webrtc-rs` calls made by `handle_signaling_message`, plus the
outcome of the `signaling_tx.send` of the synthesized answer.  `parseOffer`
/ `parseAnswer` embed `RTCSessionDescription::offer/answer`, `createAnswer`
returns the answer SDP, `parseCandidate` embeds the `serde_json` parse of
an `RTCIceCandidateInit`. -/
structure PeerConnectionOracle where
  parseOffer : String → Option String
  parseAnswer : String → Option String
  setRemoteDescription : String → Bool
  createAnswer : Option String
  setLocalDescription : String → Bool
  parseCandidate : String → Option String
  addIceCandidate : String → Bool
  signalingSendOk : Bool

/-- A peer-connection oracle whose calls all succeed, answering with the
fixed SDP `a` (used for concrete evaluations). -/
def PeerConnectionOracle.allOk (a : String) : PeerConnectionOracle :=
  ⟨fun s => some s, fun s => some s, fun _ => true, some a, fun _ => true,
   fun s => some s, fun _ => true, true⟩

/-- Result of one `handle_signaling_message` call: the updated call state,
the messages handed to `signaling_tx`, the events pushed into `event_sink`,
and the returned `WebRTCResult<()>`. -/
structure HandlerResult where
  state : CallState
  outgoing : List SignalingMessage
  events : List WebRTCEvent
  result : Except WebRTCError Unit
  deriving Repr

/-- Embeds `handle_signaling_message` (webrtc.rs lines 305–376).  In the `Offer`
arm the source sets `remote_peer_id` to `msg.from` and raises the
`IncomingCall` event *before* any fallible peer-connection call; the answer
is sent only after `set_remote_description`, `create_answer` and
`set_local_description` all succeed.  The `Answer` arm also overwrites
`remote_peer_id` with the sender.  No arm inspects the current call state:
there is no accept/reject gate and no check that the machine is idle. -/
def handleSignalingMessage (pc : PeerConnectionOracle) (st : CallState)
    (msg : SignalingMessage) : HandlerResult :=
  match msg.sigType with
  | .Identity =>
      { state := { st with localId := some msg.data }
        outgoing := [], events := [], result := .ok () }
  | .Offer =>
      let st := { st with remoteId := some msg.fromId }
      let events := [WebRTCEvent.IncomingCall msg.fromId]
      match pc.parseOffer msg.data with
      | none => { state := st, outgoing := [], events := events,
                  result := .error .SdpError }
      | some sdp =>
        if pc.setRemoteDescription sdp then
          match pc.createAnswer with
          | none => { state := st, outgoing := [], events := events,
                      result := .error .PeerConnectionError }
          | some answerSdp =>
            if pc.setLocalDescription answerSdp then
              let response : SignalingMessage :=
                { toId := msg.fromId, fromId := "",
                  sigType := .Answer, data := answerSdp }
              if pc.signalingSendOk then
                { state := st, outgoing := [response], events := events,
                  result := .ok () }
              else
                { state := st, outgoing := [], events := events,
                  result := .error .SendError }
            else
              { state := st, outgoing := [], events := events,
                result := .error .PeerConnectionError }
        else
          { state := st, outgoing := [], events := events,
            result := .error .PeerConnectionError }
  | .Answer =>
      let st := { st with remoteId := some msg.fromId }
      match pc.parseAnswer msg.data with
      | none => { state := st, outgoing := [], events := [],
                  result := .error .SdpError }
      | some sdp =>
        if pc.setRemoteDescription sdp then
          { state := st, outgoing := [], events := [], result := .ok () }
        else
          { state := st, outgoing := [], events := [],
            result := .error .PeerConnectionError }
  | .Candidate =>
      match pc.parseCandidate msg.data with
      | none => { state := st, outgoing := [], events := [],
                  result := .error .DeserializeError }
      | some cand =>
        if pc.addIceCandidate cand then
          { state := st, outgoing := [], events := [], result := .ok () }
        else
          { state := st, outgoing := [], events := [],
            result := .error .PeerConnectionError }

/-! ## C3: call auto-answer -/

/-- C3. Receiving `Offer{from: X, data: d}` while the machine is idle
(`remote_id` unset) sets `remote_id = X`, sends exactly one outgoing
message — an `Answer` addressed to `X` — and raises exactly one
incoming-call notification; no accept/reject input appears anywhere in the
handler (the answer is produced from the oracle's outcomes alone). -/
theorem call_auto_answer (pc : PeerConnectionOracle) (st : CallState)
    (msg : SignalingMessage) (sdp answerSdp : String)
    (hidle : st.remoteId = none)
    (hsig : msg.sigType = SignalingType.Offer)
    (hparse : pc.parseOffer msg.data = some sdp)
    (hsetr : pc.setRemoteDescription sdp = true)
    (hca : pc.createAnswer = some answerSdp)
    (hsetl : pc.setLocalDescription answerSdp = true)
    (hsend : pc.signalingSendOk = true) :
    (handleSignalingMessage pc st msg).state.remoteId = some msg.fromId ∧
    (handleSignalingMessage pc st msg).outgoing =
      [{ toId := msg.fromId, fromId := "", sigType := SignalingType.Answer,
         data := answerSdp }] ∧
    (handleSignalingMessage pc st msg).events =
      [WebRTCEvent.IncomingCall msg.fromId] ∧
    (handleSignalingMessage pc st msg).result = Except.ok () := by
  simp only [handleSignalingMessage, hsig, hparse, hsetr, hca, hsetl, hsend,
    if_true]
  exact ⟨trivial, trivial, trivial, trivial⟩

/-- Witness for C3 at a concrete input: an idle machine receiving an offer
from `"X"` locks onto `"X"`, answers `"X"` once and raises one
incoming-call event. -/
theorem call_auto_answer_witness :
    (⟨none, some "me"⟩ : CallState).remoteId = none ∧
    (handleSignalingMessage (PeerConnectionOracle.allOk "ans")
        ⟨none, some "me"⟩ ⟨"me", "X", SignalingType.Offer, "d"⟩).state.remoteId
      = some "X" ∧
    (handleSignalingMessage (PeerConnectionOracle.allOk "ans")
        ⟨none, some "me"⟩ ⟨"me", "X", SignalingType.Offer, "d"⟩).outgoing =
      [{ toId := "X", fromId := "", sigType := SignalingType.Answer,
         data := "ans" }] ∧
    (handleSignalingMessage (PeerConnectionOracle.allOk "ans")
        ⟨none, some "me"⟩ ⟨"me", "X", SignalingType.Offer, "d"⟩).events =
      [WebRTCEvent.IncomingCall "X"] := by
  have h := call_auto_answer (PeerConnectionOracle.allOk "ans")
    ⟨none, some "me"⟩ ⟨"me", "X", SignalingType.Offer, "d"⟩ "d" "ans"
    rfl rfl rfl rfl rfl rfl rfl
  exact ⟨rfl, h.1, h.2.1, h.2.2.1⟩

/-! ## C10: the offer handler is not gated on the idle phase -/

/-- C10. The `Offer` arm of `handleSignalingMessage` is not gated on any
phase: for *every* current call state — including one already locked onto a
remote peer — it overwrites `remote_id` with the message's `from` field
(this happens before any fallible collaborator call, so it holds
unconditionally), and when the collaborator calls succeed it sends an
`Answer` back to that sender; hence a later offer from a different peer
re-targets the in-progress call. -/
theorem offer_handler_not_gated (pc : PeerConnectionOracle) (st : CallState)
    (msg : SignalingMessage) (sdp answerSdp : String)
    (hsig : msg.sigType = SignalingType.Offer)
    (hparse : pc.parseOffer msg.data = some sdp)
    (hsetr : pc.setRemoteDescription sdp = true)
    (hca : pc.createAnswer = some answerSdp)
    (hsetl : pc.setLocalDescription answerSdp = true)
    (hsend : pc.signalingSendOk = true) :
    (handleSignalingMessage pc st msg).state.remoteId = some msg.fromId ∧
    (handleSignalingMessage pc st msg).outgoing =
      [{ toId := msg.fromId, fromId := "", sigType := SignalingType.Answer,
         data := answerSdp }] := by
  simp only [handleSignalingMessage, hsig, hparse, hsetr, hca, hsetl, hsend,
    if_true]
  exact ⟨trivial, trivial⟩

/-- Witness for C10 at a concrete input: a machine already in a call with
`"B"` receives an offer from `"C"`; `remote_id` is overwritten to `"C"` and
an answer is sent to `"C"` — the in-progress call is re-targeted. -/
theorem offer_handler_not_gated_witness :
    (⟨some "B", some "me"⟩ : CallState).remoteId = some "B" ∧
    (handleSignalingMessage (PeerConnectionOracle.allOk "ans")
        ⟨some "B", some "me"⟩ ⟨"me", "C", SignalingType.Offer, "d"⟩).state.remoteId
      = some "C" ∧
    (handleSignalingMessage (PeerConnectionOracle.allOk "ans")
        ⟨some "B", some "me"⟩ ⟨"me", "C", SignalingType.Offer, "d"⟩).outgoing =
      [{ toId := "C", fromId := "", sigType := SignalingType.Answer,
         data := "ans" }] := by
  have h := offer_handler_not_gated (PeerConnectionOracle.allOk "ans")
    ⟨some "B", some "me"⟩ ⟨"me", "C", SignalingType.Offer, "d"⟩ "d" "ans"
    rfl rfl rfl rfl rfl rfl
  exact ⟨rfl, h.1, h.2⟩

/-! ## Transport state-change events and the UI handler

`webrtc.rs` lines 161–178: `on_peer_connection_state_change` sends
`WebRTCEvent::Connected` on `Connected` and `WebRTCEvent::Disconnected` on
`Disconnected` or `Closed`; it touches nothing else (in particular it never
writes `remote_peer_id`, which on this path is written by no code at all —
only `create_offer`, `disconnect` and the `Offer`/`Answer` arms of
`handle_signaling_message` assign it).

`src/ui/app.rs` lines 303–330: the `Message::WebRTCEvent` arm of the UI
update sets `target_id` on `IncomingCall`, switches the Home screen to the
Capture screen on `Connected`, and on `Disconnected` only logs and returns
`Task::none()`. -/

/-- Embeds `RTCPeerConnectionState` of `webrtc-rs`. -/
inductive RTCPeerConnectionState where
  | Unspecified
  | New
  | Connecting
  | Connected
  | Disconnected
  | Failed
  | Closed
  deriving DecidableEq, Repr

/-- The events emitted by the `on_peer_connection_state_change` callback
(webrtc.rs lines 161–178) for one transport state change. -/
def onPeerConnectionStateChange (s : RTCPeerConnectionState) :
    List WebRTCEvent :=
  if s = .Connected then [WebRTCEvent.Connected]
  else if s = .Disconnected ∨ s = .Closed then [WebRTCEvent.Disconnected]
  else []

/-- Embeds `ActiveScreen` of `src/ui/app.rs`. -/
inductive ActiveScreen where
  | Onboarding
  | Home
  | Capture
  | Settings
  deriving DecidableEq, Repr

/-- The call-related UI state of `AppContext` (`src/ui/state.rs`):
`target_id` and the active screen. -/
structure AppCtx where
  targetId : Option String
  activeScreen : ActiveScreen
  deriving DecidableEq, Repr

/-- The `Message::WebRTCEvent` arm of the UI update (`src/ui/app.rs`
lines 303–330): `IncomingCall` stores the sender in `target_id`;
`Connected` switches Home to Capture; `Disconnected` only logs. -/
def appHandleWebRTCEvent (ctx : AppCtx) (e : WebRTCEvent) : AppCtx :=
  match e with
  | .IncomingCall sender => { ctx with targetId := some sender }
  | .Connected =>
      if ctx.activeScreen = .Home then { ctx with activeScreen := .Capture }
      else ctx
  | .Disconnected => ctx

/-- The combined call state visible to both sides of the event pipe:
the WebRTC layer's `remote_peer_id` and the UI context. -/
structure SystemCallState where
  remoteId : Option String
  ctx : AppCtx
  deriving DecidableEq, Repr

/-- End-to-end handling of one transport state-change event: the
peer-connection callback emits its events and the UI update consumes them.
No code on this path writes `remote_peer_id`, so that field is carried
through unchanged — the only assignments to it in the source are in
`create_offer`, `disconnect` and the `Offer`/`Answer` signaling arms. -/
def transportStateChange (sys : SystemCallState)
    (s : RTCPeerConnectionState) : SystemCallState :=
  { sys with ctx := (onPeerConnectionStateChange s).foldl appHandleWebRTCEvent sys.ctx }

/-- Embeds `WebRTC::disconnect` (webrtc.rs lines 298–302): close the peer
connection, then clear `remote_peer_id`; a close failure propagates with
`?` before the clear.  `closeOk` is the platform call's outcome. -/
def webrtcDisconnect (closeOk : Bool) (sys : SystemCallState) :
    SystemCallState × Except WebRTCError Unit :=
  if closeOk then ({ sys with remoteId := none }, .ok ())
  else (sys, .error .PeerConnectionError)

/-! ## C4: disconnect events do not reset the call state

The claim that a transport-level "disconnected"/"closed" event results in
an idle phase with `remote_id = None` is false: the event only reaches the
UI handler, which logs it and returns `Task::none()`; neither the callback
nor the UI clears `remote_peer_id` (or `target_id`).  Only the explicit
`WebRTC::disconnect` call clears `remote_peer_id`. -/

/-- C4 counterexample. A session in a call with `"X"` receives a
transport `Disconnected` state-change event; afterwards `remote_peer_id` is
still `some "X"` (and `target_id` still `some "X"`), not `None` as the
claim requires. -/
theorem disconnect_event_leaves_remote_id :
    (transportStateChange ⟨some "X", ⟨some "X", ActiveScreen.Capture⟩⟩
        RTCPeerConnectionState.Disconnected).remoteId = some "X" ∧
    (transportStateChange ⟨some "X", ⟨some "X", ActiveScreen.Capture⟩⟩
        RTCPeerConnectionState.Disconnected).ctx.targetId = some "X" ∧
    some "X" ≠ (none : Option String) := by
  exact ⟨rfl, rfl, fun h => Option.noConfusion h⟩

/-- C4 (amended). For every call state and for both the "disconnected"
and the "closed" transport state-change events, the event pipeline delivers
exactly one `Disconnected` event to the UI and leaves the entire call state
(in particular `remote_peer_id`) unchanged; `remote_peer_id` is cleared
only by the explicit `disconnect()` call. -/
theorem disconnect_event_is_log_only (sys : SystemCallState)
    (s : RTCPeerConnectionState)
    (hdis : s = RTCPeerConnectionState.Disconnected ∨
            s = RTCPeerConnectionState.Closed) :
    transportStateChange sys s = sys ∧
    onPeerConnectionStateChange s = [WebRTCEvent.Disconnected] ∧
    (webrtcDisconnect true sys).1.remoteId = none := by
  have hev : onPeerConnectionStateChange s = [WebRTCEvent.Disconnected] := by
    rcases hdis with h | h <;> subst h <;> rfl
  refine ⟨?_, hev, rfl⟩
  simp only [transportStateChange, hev, List.foldl_cons, List.foldl_nil,
    appHandleWebRTCEvent]

/-- Witness for C4 (amended) at a concrete input: a connected call with
remote `"X"` is untouched by the `Closed` transport event, while the
explicit `disconnect()` clears `remote_peer_id`. -/
theorem disconnect_event_is_log_only_witness :
    (RTCPeerConnectionState.Closed = RTCPeerConnectionState.Disconnected ∨
      RTCPeerConnectionState.Closed = RTCPeerConnectionState.Closed) ∧
    transportStateChange ⟨some "X", ⟨some "X", ActiveScreen.Capture⟩⟩
        RTCPeerConnectionState.Closed =
      ⟨some "X", ⟨some "X", ActiveScreen.Capture⟩⟩ := by
  refine ⟨Or.inr rfl, ?_⟩
  exact (disconnect_event_is_log_only
    ⟨some "X", ⟨some "X", ActiveScreen.Capture⟩⟩
    RTCPeerConnectionState.Closed (Or.inr rfl)).1

/-! ## Buffer arena (`src/utils/buffer_arena.rs`)

`BufferArena` wraps a `bytes::BytesMut` in `Arc<RwLock<..>>`.  `get(size)`
(lines 28–46) grows the `BytesMut` when its length is below `size`
(`reserve` + `set_len`) and then `split_to(size)`s a chunk off the front,
returning a `BufferRef`.  Dropping a non-consumed `BufferRef` (lines 85–95)
calls `parent.unsplit(chunk)`; `BufferRef::freeze` (lines 63–69) takes the
chunk out (`data_taken = true`) and converts it into an immutable `Bytes`.

The `BytesMut` operations are embedded following the `bytes` crate
(version 1.x) semantics:

* a `BytesMut` is a *view* `(allocId, off, len, cap)` into a heap
  allocation; `split_to(at)` hands out the front `[off, off+at)` of the
  view and advances the view; both halves share the allocation;
* `unsplit(chunk)` takes the view of `chunk` wholesale when the receiver is
  empty, merges in O(1) only when `chunk` starts exactly at the receiver's
  end (which cannot happen for the arena, whose chunks *precede* the
  remaining view), and otherwise falls back to `extend_from_slice` — the
  source comment on `Drop` itself warns about the potential reallocation;
* `reserve(additional)` is a no-op while the view has spare capacity;
  otherwise, when no other live handle shares the allocation, it reuses
  spare room at the end of the allocation or copies the contents back to
  the start, and only reallocates when the allocation is genuinely too
  small; when the allocation *is* shared (an outstanding chunk or a frozen
  `Bytes`), it must leave the shared buffer alone and allocates a fresh
  region of exactly `len + additional` bytes (the `original_capacity`
  bucket of `bytes` is 0 for allocations below 1 KiB, as here).

Allocations are numbered by `nextAlloc` so regions of distinct allocations
are distinct; `reallocs` counts every fresh allocation performed by
`reserve` after initialization.  The embedding tracks the usage discipline
of the capture pipeline — at most one outstanding `BufferRef` at a time —
plus any number of live frozen `Bytes`. -/

/-- A contiguous byte region inside a numbered heap allocation. -/
structure Region where
  allocId : Nat
  start : Nat
  size : Nat
  deriving DecidableEq, Repr

/-- The arena's `BytesMut` view: allocation, view offset, initialized
length, and view capacity. -/
structure BMView where
  allocId : Nat
  off : Nat
  len : Nat
  cap : Nat
  deriving DecidableEq, Repr

/-- The state of one `BufferArena` together with its live handles: the
outstanding `BufferRef` (region plus its `data_taken` flag) and the live
frozen `Bytes`. -/
structure ArenaState where
  arena : BMView
  allocCap : Nat
  lease : Option (Region × Bool)
  frozen : List Region
  nextAlloc : Nat
  reallocs : Nat
  deriving DecidableEq, Repr

/-- Two regions are disjoint: different allocations or non-overlapping
byte ranges. -/
def RDisj (a b : Region) : Prop :=
  a.allocId ≠ b.allocId ∨ a.start + a.size ≤ b.start ∨ b.start + b.size ≤ a.start

instance (a b : Region) : Decidable (RDisj a b) := by
  unfold RDisj
  exact inferInstance

/-- The whole byte range the arena's view may touch, `[off, off + cap)`. -/
def arenaSpan (st : ArenaState) : Region :=
  ⟨st.arena.allocId, st.arena.off, st.arena.cap⟩

/-- The live handles, other than the arena itself, that keep a reference to
some allocation: the frozen `Bytes`, the not-taken outstanding `BufferRef`,
and `extra` (a chunk being returned inside `unsplit`). -/
def liveOther (st : ArenaState) (extra : List Region) : List Region :=
  st.frozen ++ extra ++
    (match st.lease with
     | some (L, false) => [L]
     | _ => [])

/-- Whether some other live handle shares the arena's current allocation
(the `is_unique` refcount test of `BytesMut::reserve`). -/
def isShared (st : ArenaState) (extra : List Region) : Bool :=
  (liveOther st extra).any (fun r => r.allocId == st.arena.allocId)

/-- The slow path of `BytesMut::reserve`: reuse spare room at the end of
the allocation, or copy the contents back to its start, when the arena is
the allocation's only live handle; otherwise allocate a fresh region of
`len + additional` bytes.  Every fresh allocation bumps `reallocs`. -/
def reserveInner (st : ArenaState) (additional : Nat) (extra : List Region) :
    ArenaState :=
  let newCap := st.arena.len + additional
  if isShared st extra then
    { st with arena := ⟨st.nextAlloc, 0, st.arena.len, newCap⟩,
              allocCap := newCap, nextAlloc := st.nextAlloc + 1,
              reallocs := st.reallocs + 1 }
  else if newCap + st.arena.off ≤ st.allocCap then
    { st with arena := { st.arena with cap := st.allocCap - st.arena.off } }
  else if newCap ≤ st.allocCap ∧ st.arena.len ≤ st.arena.off then
    { st with arena := { st.arena with off := 0, cap := st.allocCap } }
  else
    { st with arena := ⟨st.nextAlloc, 0, st.arena.len, newCap⟩,
              allocCap := newCap, nextAlloc := st.nextAlloc + 1,
              reallocs := st.reallocs + 1 }

/-- Embeds `BytesMut::reserve(additional)` on the arena: fast no-op while the view
has spare capacity. -/
def bmReserve (st : ArenaState) (additional : Nat) (extra : List Region) :
    ArenaState :=
  if additional ≤ st.arena.cap - st.arena.len then st
  else reserveInner st additional extra

/-- Embeds `BufferArena::get(size)` (buffer_arena.rs lines 28–46): grow the view
to `size` initialized bytes when needed (`reserve(size - len)` +
`set_len`), then `split_to(size)`: the returned `BufferRef` takes the front
`size` bytes of the view and the arena's view advances past them. -/
def arenaGet (st : ArenaState) (size : Nat) : ArenaState × Region :=
  let st1 :=
    if st.arena.len < size then
      let st' := bmReserve st (size - st.arena.len) []
      { st' with arena := { st'.arena with len := size } }
    else st
  let r : Region := ⟨st1.arena.allocId, st1.arena.off, size⟩
  ({ st1 with
      arena := ⟨st1.arena.allocId, st1.arena.off + size,
                st1.arena.len - size, st1.arena.cap - size⟩
      lease := some (r, false) }, r)

/-- Embeds `BytesMut::unsplit(chunk)` with the arena as receiver: take the chunk's
view wholesale when the arena view is empty; absorb a zero-capacity chunk;
merge in O(1) only when the chunk starts exactly at the view's end;
otherwise `extend_from_slice` — `reserve(chunk.len)` (with the chunk still
alive, hence counted as a sharing handle) followed by a copy that extends
the view's length. -/
def unsplitBack (st : ArenaState) (L : Region) : ArenaState :=
  if st.arena.len = 0 then
    { st with arena := ⟨L.allocId, L.start, L.size, L.size⟩ }
  else if L.size = 0 then st
  else if st.arena.allocId = L.allocId ∧ st.arena.off + st.arena.len = L.start then
    { st with arena := { st.arena with len := st.arena.len + L.size,
                                       cap := st.arena.cap + L.size } }
  else
    let st' := bmReserve st L.size [L]
    { st' with arena := { st'.arena with len := st'.arena.len + L.size } }

/-- Embeds `impl Drop for BufferRef` (buffer_arena.rs lines 85–95): when the data
was not taken by `freeze`, `unsplit` the chunk back into the arena; when
`data_taken` is set, do nothing to the arena. -/
def bufferRefDrop (st : ArenaState) : ArenaState :=
  match st.lease with
  | none => st
  | some (_, true) => { st with lease := none }
  | some (L, false) => unsplitBack { st with lease := none } L

/-- Embeds `BufferRef::freeze` (buffer_arena.rs lines 63–69): `mem::take` the
chunk out of the `BufferRef` (leaving a detached empty `BytesMut` and
`data_taken = true`) and turn it into a live frozen `Bytes`. -/
def freezeTake (st : ArenaState) : ArenaState :=
  match st.lease with
  | some (L, false) =>
      { st with frozen := L :: st.frozen, lease := some (⟨0, 0, 0⟩, true) }
  | _ => st

/-- Embeds `freeze` consumes the `BufferRef`, so its `Drop` (a no-op, since
`data_taken` is set) runs immediately after the take. -/
def arenaFreeze (st : ArenaState) : ArenaState :=
  bufferRefDrop (freezeTake st)

/-- Dropping a frozen `Bytes` merely releases its reference to the shared
allocation (it never touches the arena's `BytesMut`): the `i`-th frozen
region stops being live. -/
def bytesDropAt (st : ArenaState) (i : Nat) : ArenaState :=
  { st with frozen := st.frozen.eraseIdx i }

/-- Embeds `BufferArena::init(capacity)` (lines 22–26): `BytesMut::with_capacity`
followed by `set_len(capacity)` — a single allocation, fully initialized,
numbered 0. -/
def arenaInit (c : Nat) : ArenaState :=
  { arena := ⟨0, 0, c, c⟩, allocCap := c, lease := none, frozen := [],
    nextAlloc := 1, reallocs := 0 }

/-- Operations a client can perform on the arena (one outstanding
`BufferRef` at a time, matching the capture pipeline's usage). -/
inductive ArenaOp where
  | get (size : Nat)
  | dropRef
  | freeze
  | dropBytes (i : Nat)
  deriving DecidableEq, Repr

/-- One client operation; `none` when the operation is not available in the
current state (no outstanding lease to drop/freeze, a second concurrent
lease, or an out-of-range frozen index). -/
def arenaStep (st : ArenaState) : ArenaOp → Option (ArenaState × Option Region)
  | .get n =>
      match st.lease with
      | some _ => none
      | none => some ((arenaGet st n).1, some (arenaGet st n).2)
  | .dropRef =>
      match st.lease with
      | none => none
      | some _ => some (bufferRefDrop st, none)
  | .freeze =>
      match st.lease with
      | some (_, false) => some (arenaFreeze st, none)
      | _ => none
  | .dropBytes i =>
      if i < st.frozen.length then some (bytesDropAt st i, none) else none

/-- Run a trace of operations, recording each region granted by a `get`
together with the regions frozen at that moment (the trace stops at the
first unavailable operation). -/
def traceGrants (st : ArenaState) : List ArenaOp → List (Region × List Region)
  | [] => []
  | op :: ops =>
      match arenaStep st op with
      | none => []
      | some (st', some r) => (r, st.frozen) :: traceGrants st' ops
      | some (st', none) => traceGrants st' ops

/-- The invariant on the outstanding `BufferRef`: a not-taken chunk lives
in the arena's current allocation, ends exactly where the arena's view
begins (it was split off the front), and is disjoint from every live
frozen region. -/
def LeaseOkAux (st : ArenaState) : Option (Region × Bool) → Prop
  | some (L, false) =>
      L.allocId = st.arena.allocId ∧ L.start + L.size = st.arena.off ∧
        ∀ f ∈ st.frozen, RDisj f L
  | some (_, true) => True
  | none => True

instance (st : ArenaState) : ∀ o, Decidable (LeaseOkAux st o)
  | some (_, false) => inferInstanceAs (Decidable (_ ∧ _ ∧ _))
  | some (_, true) => inferInstanceAs (Decidable True)
  | none => inferInstanceAs (Decidable True)

/-- State invariant of the arena embedding: the view is well-formed and
inside its allocation, allocation numbers are fresh, every live frozen
region is disjoint from the whole range the arena's view may touch, and
the outstanding chunk (if any) is well-placed. -/
def ArenaInv (st : ArenaState) : Prop :=
  st.arena.len ≤ st.arena.cap ∧
  st.arena.off + st.arena.cap ≤ st.allocCap ∧
  st.arena.allocId < st.nextAlloc ∧
  (∀ f ∈ st.frozen, f.allocId < st.nextAlloc) ∧
  (∀ f ∈ st.frozen, RDisj f (arenaSpan st)) ∧
  LeaseOkAux st st.lease

instance (st : ArenaState) : Decidable (ArenaInv st) := by
  unfold ArenaInv
  exact inferInstance

/-! ### Arena invariant preservation -/

theorem RDisj_of_sub {f s r : Region} (h : RDisj f s) (hid : r.allocId = s.allocId)
    (h1 : s.start ≤ r.start) (h2 : r.start + r.size ≤ s.start + s.size) :
    RDisj f r := by
  rcases h with h | h | h
  · exact Or.inl (fun e => h (e.trans hid))
  · exact Or.inr (Or.inl (Nat.le_trans h h1))
  · exact Or.inr (Or.inr (Nat.le_trans h2 h))

theorem notShared_frozen_ne (st : ArenaState) (extra : List Region)
    (h : isShared st extra = false) :
    ∀ f ∈ st.frozen, f.allocId ≠ st.arena.allocId := by
  intro f hf
  simp only [isShared, List.any_eq_false] at h
  have hmem : f ∈ liveOther st extra := by
    simp only [liveOther, List.mem_append]
    exact Or.inl (Or.inl hf)
  have := h f hmem
  simpa using this

theorem bmReserve_spec (st : ArenaState) (additional : Nat) (extra : List Region)
    (hlc : st.arena.len ≤ st.arena.cap)
    (hcap : st.arena.off + st.arena.cap ≤ st.allocCap)
    (hid : st.arena.allocId < st.nextAlloc)
    (hfr : ∀ f ∈ st.frozen, f.allocId < st.nextAlloc) :
    (bmReserve st additional extra).arena.len = st.arena.len ∧
    st.arena.len + additional ≤ (bmReserve st additional extra).arena.cap ∧
    (bmReserve st additional extra).arena.off + (bmReserve st additional extra).arena.cap
      ≤ (bmReserve st additional extra).allocCap ∧
    (bmReserve st additional extra).arena.allocId < (bmReserve st additional extra).nextAlloc ∧
    st.nextAlloc ≤ (bmReserve st additional extra).nextAlloc ∧
    (bmReserve st additional extra).frozen = st.frozen ∧
    (bmReserve st additional extra).lease = st.lease ∧
    (∀ f ∈ st.frozen, RDisj f (arenaSpan st) →
      RDisj f (arenaSpan (bmReserve st additional extra))) := by
  unfold bmReserve
  by_cases hfast : additional ≤ st.arena.cap - st.arena.len
  · rw [if_pos hfast]
    refine ⟨rfl, by omega, hcap, hid, Nat.le_refl _, rfl, rfl, fun f _ hd => hd⟩
  · rw [if_neg hfast]
    unfold reserveInner
    by_cases hsh : isShared st extra
    · rw [if_pos hsh]
      dsimp only
      refine ⟨rfl, by omega, by omega, by omega, by omega, rfl, rfl, ?_⟩
      intro f hf _
      exact Or.inl (Nat.ne_of_lt (hfr f hf))
    · rw [if_neg hsh]
      have hne := notShared_frozen_ne st extra (Bool.not_eq_true _ ▸ eq_false_of_ne_true hsh)
      by_cases hA : st.arena.len + additional + st.arena.off ≤ st.allocCap
      · rw [if_pos hA]
        dsimp only
        refine ⟨rfl, by omega, by omega, hid, Nat.le_refl _, rfl, rfl, ?_⟩
        intro f hf _
        exact Or.inl (hne f hf)
      · rw [if_neg hA]
        by_cases hB : st.arena.len + additional ≤ st.allocCap ∧ st.arena.len ≤ st.arena.off
        · rw [if_pos hB]
          dsimp only
          refine ⟨rfl, by omega, by omega, hid, Nat.le_refl _, rfl, rfl, ?_⟩
          intro f hf _
          exact Or.inl (hne f hf)
        · rw [if_neg hB]
          dsimp only
          refine ⟨rfl, by omega, by omega, by omega, by omega, rfl, rfl, ?_⟩
          intro f hf _
          exact Or.inl (Nat.ne_of_lt (hfr f hf))

theorem arenaGet_spec (st : ArenaState) (size : Nat)
    (h : ArenaInv st) (hl : st.lease = none) :
    ArenaInv (arenaGet st size).1 ∧
    (arenaGet st size).1.frozen = st.frozen ∧
    (arenaGet st size).1.lease = some ((arenaGet st size).2, false) ∧
    (∀ f ∈ st.frozen, RDisj f (arenaGet st size).2) := by
  obtain ⟨h1, h2, h3, h4, h5, _⟩ := h
  by_cases hsz : st.arena.len < size
  · obtain ⟨e1, e2, e3, e4, e5, e6, e7, e8⟩ :=
      bmReserve_spec st (size - st.arena.len) [] h1 h2 h3 h4
    simp only [arenaGet, if_pos hsz]
    set A := bmReserve st (size - st.arena.len) [] with hA
    refine ⟨⟨?_, ?_, e4, ?_, ?_, ⟨rfl, rfl, ?_⟩⟩, e6, trivial, ?_⟩
    · dsimp only
      omega
    · dsimp only
      omega
    · dsimp only
      rw [e6]
      intro f hf
      exact Nat.lt_of_lt_of_le (h4 f hf) e5
    · dsimp only
      rw [e6]
      intro f hf
      have hdA : RDisj f (arenaSpan A) := e8 f hf (h5 f hf)
      exact RDisj_of_sub hdA rfl (Nat.le_add_right _ _)
        (by simp only [arenaSpan]; omega)
    · dsimp only
      rw [e6]
      intro f hf
      have hdA : RDisj f (arenaSpan A) := e8 f hf (h5 f hf)
      exact RDisj_of_sub hdA rfl (Nat.le_refl _) (by simp only [arenaSpan]; omega)
    · intro f hf
      have hdA : RDisj f (arenaSpan A) := e8 f hf (h5 f hf)
      exact RDisj_of_sub hdA rfl (Nat.le_refl _) (by simp only [arenaSpan]; omega)
  · simp only [arenaGet, if_neg hsz]
    have hsz' : size ≤ st.arena.len := Nat.le_of_not_lt hsz
    refine ⟨⟨?_, ?_, ?_, ?_, ?_, ⟨rfl, rfl, ?_⟩⟩, trivial, trivial, ?_⟩
    · dsimp only
      omega
    · dsimp only
      omega
    · dsimp only
      exact h3
    · dsimp only
      exact h4
    · dsimp only
      intro f hf
      exact RDisj_of_sub (h5 f hf) rfl (Nat.le_add_right _ _)
        (by simp only [arenaSpan]; omega)
    · dsimp only
      intro f hf
      exact RDisj_of_sub (h5 f hf) rfl (Nat.le_refl _)
        (by simp only [arenaSpan]; omega)
    · intro f hf
      exact RDisj_of_sub (h5 f hf) rfl (Nat.le_refl _)
        (by simp only [arenaSpan]; omega)

theorem bufferRefDrop_inv (st : ArenaState) (h : ArenaInv st) :
    ArenaInv (bufferRefDrop st) := by
  obtain ⟨h1, h2, h3, h4, h5, h6⟩ := h
  rcases hl : st.lease with _ | ⟨L, b⟩
  · simpa only [bufferRefDrop, hl] using ⟨h1, h2, h3, h4, h5, by rw [hl]; trivial⟩
  · cases b
    · rw [hl] at h6
      obtain ⟨hLa, hLe, hLd⟩ := h6
      simp only [bufferRefDrop, hl]
      unfold unsplitBack
      by_cases hzero : st.arena.len = 0
      · rw [if_pos hzero]
        refine ⟨?_, ?_, ?_, ?_, ?_, trivial⟩
        · dsimp only
          exact Nat.le_refl _
        · dsimp only
          omega
        · dsimp only
          omega
        · dsimp only
          exact h4
        · dsimp only
          intro f hf
          have hd := hLd f hf
          simpa only [arenaSpan] using hd
      · rw [if_neg hzero]
        by_cases hLz : L.size = 0
        · rw [if_pos hLz]
          exact ⟨h1, h2, h3, h4, h5, trivial⟩
        · rw [if_neg hLz]
          by_cases hmerge : st.arena.allocId = L.allocId ∧
              st.arena.off + st.arena.len = L.start
          · exact absurd rfl (by omega : ¬(0 = 0))
          · rw [if_neg hmerge]
            obtain ⟨e1, e2, e3, e4, e5, e6, e7, e8⟩ :=
              bmReserve_spec { st with lease := none } L.size [L] h1 h2 h3 h4
            set A := bmReserve { st with lease := none } L.size [L] with hA
            refine ⟨?_, ?_, ?_, ?_, ?_, ?_⟩
            · dsimp only
              omega
            · dsimp only
              exact e3
            · dsimp only
              exact e4
            · dsimp only
              rw [e6]
              intro f hf
              exact Nat.lt_of_lt_of_le (h4 f hf) e5
            · dsimp only
              rw [e6]
              intro f hf
              exact e8 f hf (h5 f hf)
            · show LeaseOkAux _ A.lease
              rw [e7]
              trivial
    · simp only [bufferRefDrop, hl]
      exact ⟨h1, h2, h3, h4, h5, trivial⟩

theorem arenaFreeze_inv (st : ArenaState) (L : Region) (h : ArenaInv st)
    (hl : st.lease = some (L, false)) : ArenaInv (arenaFreeze st) := by
  obtain ⟨h1, h2, h3, h4, h5, h6⟩ := h
  rw [hl] at h6
  obtain ⟨hLa, hLe, hLd⟩ := h6
  simp only [arenaFreeze, freezeTake, hl, bufferRefDrop]
  refine ⟨h1, h2, h3, ?_, ?_, trivial⟩
  · intro f hf
    rcases List.mem_cons.mp hf with hfL | hf
    · rw [hfL, hLa]
      exact h3
    · exact h4 f hf
  · intro f hf
    rcases List.mem_cons.mp hf with hfL | hf
    · rw [hfL]
      exact Or.inr (Or.inl (Nat.le_of_eq hLe))
    · exact h5 f hf

theorem bytesDropAt_inv (st : ArenaState) (i : Nat) (h : ArenaInv st) :
    ArenaInv (bytesDropAt st i) := by
  obtain ⟨h1, h2, h3, h4, h5, h6⟩ := h
  have hsub : ∀ f ∈ st.frozen.eraseIdx i, f ∈ st.frozen :=
    fun f hf => List.eraseIdx_subset st.frozen i hf
  refine ⟨h1, h2, h3, fun f hf => h4 f (hsub f hf), fun f hf => h5 f (hsub f hf), ?_⟩
  show LeaseOkAux _ st.lease
  rcases hlk : st.lease with _ | ⟨L, b⟩
  · trivial
  · cases b
    · rw [hlk] at h6
      obtain ⟨hLa, hLe, hLd⟩ := h6
      exact ⟨hLa, hLe, fun f hf => hLd f (hsub f hf)⟩
    · trivial

theorem arenaStep_inv (st : ArenaState) (op : ArenaOp) (p : ArenaState × Option Region)
    (h : ArenaInv st) (hs : arenaStep st op = some p) : ArenaInv p.1 := by
  cases op with
  | get n =>
      rcases hl : st.lease with _ | l
      · simp only [arenaStep, hl] at hs
        obtain rfl := Option.some.inj hs
        exact (arenaGet_spec st n h hl).1
      · simp only [arenaStep, hl] at hs
        exact Option.noConfusion hs
  | dropRef =>
      rcases hl : st.lease with _ | l
      · simp only [arenaStep, hl] at hs
        exact Option.noConfusion hs
      · simp only [arenaStep, hl] at hs
        obtain rfl := Option.some.inj hs
        exact bufferRefDrop_inv st h
  | freeze =>
      rcases hl : st.lease with _ | ⟨L, b⟩
      · simp only [arenaStep, hl] at hs
        exact Option.noConfusion hs
      · cases b
        · simp only [arenaStep, hl] at hs
          obtain rfl := Option.some.inj hs
          exact arenaFreeze_inv st L h hl
        · simp only [arenaStep, hl] at hs
          exact Option.noConfusion hs
  | dropBytes i =>
      by_cases hi : i < st.frozen.length
      · simp only [arenaStep, if_pos hi] at hs
        obtain rfl := Option.some.inj hs
        exact bytesDropAt_inv st i h
      · simp only [arenaStep, if_neg hi] at hs
        exact Option.noConfusion hs

theorem arenaStep_get_disj (st : ArenaState) (n : Nat) (st' : ArenaState)
    (r : Region) (h : ArenaInv st)
    (hs : arenaStep st (ArenaOp.get n) = some (st', some r)) :
    ∀ f ∈ st.frozen, RDisj f r := by
  rcases hl : st.lease with _ | l
  · simp only [arenaStep, hl] at hs
    obtain ⟨-, hr⟩ := Prod.mk.inj (Option.some.inj hs)
    obtain rfl := Option.some.inj hr
    exact (arenaGet_spec st n h hl).2.2.2
  · simp only [arenaStep, hl] at hs
    exact Option.noConfusion hs

theorem traceGrants_disjoint (ops : List ArenaOp) (st : ArenaState)
    (h : ArenaInv st) :
    ∀ g ∈ traceGrants st ops, ∀ f ∈ g.2, RDisj f g.1 := by
  induction ops generalizing st with
  | nil => intro g hg; simp only [traceGrants, List.not_mem_nil] at hg
  | cons op ops ih =>
      intro g hg
      rcases hop : arenaStep st op with _ | ⟨st', r?⟩
      · simp only [traceGrants, hop, List.not_mem_nil] at hg
      · rcases r? with _ | r
        · simp only [traceGrants, hop] at hg
          exact ih st' (arenaStep_inv st op (st', none) h hop) g hg
        · simp only [traceGrants, hop, List.mem_cons] at hg
          rcases hg with rfl | hg
          · intro f hf
            cases op with
            | get n => exact arenaStep_get_disj st n st' r h hop f hf
            | dropRef =>
                rcases hl : st.lease with _ | l
                · simp only [arenaStep, hl] at hop
                  exact Option.noConfusion hop
                · simp only [arenaStep, hl] at hop
                  obtain ⟨-, hnone⟩ := Prod.mk.inj (Option.some.inj hop)
                  exact Option.noConfusion hnone
            | freeze =>
                rcases hl : st.lease with _ | ⟨L, b⟩
                · simp only [arenaStep, hl] at hop
                  exact Option.noConfusion hop
                · cases b
                  · simp only [arenaStep, hl] at hop
                    obtain ⟨-, hnone⟩ := Prod.mk.inj (Option.some.inj hop)
                    exact Option.noConfusion hnone
                  · simp only [arenaStep, hl] at hop
                    exact Option.noConfusion hop
            | dropBytes i =>
                by_cases hi : i < st.frozen.length
                · simp only [arenaStep, if_pos hi] at hop
                  obtain ⟨-, hnone⟩ := Prod.mk.inj (Option.some.inj hop)
                  exact Option.noConfusion hnone
                · simp only [arenaStep, if_neg hi] at hop
                  exact Option.noConfusion hop
          · exact ih st' (arenaStep_inv st op (st', some r) h hop) g hg

/-! ## C5: freeze is terminal -/

/-- C5. Freeze is terminal: in every valid operation trace, any region
granted by a `get` is disjoint from every region that is frozen (and still
live) at that moment — the frozen lease's bytes are never handed out again;
dropping the `BufferRef` after `freeze` (its `data_taken` flag set) does
nothing to the arena, and dropping the frozen `Bytes` itself only releases
the handle — the arena's backing region, view, and reallocation count are
unchanged (nothing is returned to the arena). -/
theorem freeze_is_terminal (st : ArenaState) (ops : List ArenaOp)
    (h : ArenaInv st) :
    (∀ g ∈ traceGrants st ops, ∀ f ∈ g.2, RDisj f g.1) ∧
    (∀ L : Region, st.lease = some (L, true) →
      bufferRefDrop st = { st with lease := none }) ∧
    (∀ i, (bytesDropAt st i).arena = st.arena ∧
      (bytesDropAt st i).allocCap = st.allocCap ∧
      (bytesDropAt st i).reallocs = st.reallocs) := by
  refine ⟨traceGrants_disjoint ops st h, ?_, fun i => ⟨rfl, rfl, rfl⟩⟩
  intro L hL
  simp only [bufferRefDrop, hL]

/-- Witness for C5 at a concrete input: starting from a fresh arena of
capacity 2, the trace "get, freeze, get, drop the lease, drop the frozen
bytes, get" satisfies the invariant hypothesis and the theorem applies. -/
theorem freeze_is_terminal_witness :
    ArenaInv (arenaInit 2) ∧
    ((∀ g ∈ traceGrants (arenaInit 2)
        [ArenaOp.get 2, ArenaOp.freeze, ArenaOp.get 2, ArenaOp.dropRef,
         ArenaOp.dropBytes 0, ArenaOp.get 2], ∀ f ∈ g.2, RDisj f g.1) ∧
     (∀ L : Region, (arenaInit 2).lease = some (L, true) →
       bufferRefDrop (arenaInit 2) = { arenaInit 2 with lease := none }) ∧
     (∀ i, (bytesDropAt (arenaInit 2) i).arena = (arenaInit 2).arena ∧
       (bytesDropAt (arenaInit 2) i).allocCap = (arenaInit 2).allocCap ∧
       (bytesDropAt (arenaInit 2) i).reallocs = (arenaInit 2).reallocs)) :=
  ⟨by decide, freeze_is_terminal (arenaInit 2)
    [ArenaOp.get 2, ArenaOp.freeze, ArenaOp.get 2, ArenaOp.dropRef,
     ArenaOp.dropBytes 0, ArenaOp.get 2] (by decide)⟩

/-! ## C8: arena reuse bound

The claim bounds the number of backing-region reallocations, over any
sequence of fully dropped leases, by the number of distinct sizes exceeding
prior capacity.  This fails on the code: the arena's `Drop` returns the
chunk with `tail.unsplit(head)`, whose O(1) merge requires the absorbed
half to *follow* the receiver, while the arena's chunks *precede* the
remaining view.  Whenever a lease is returned to a non-empty arena the
fallback `extend_from_slice` must `reserve` while the chunk still shares
the allocation, which forces a fresh allocation — once per `get`/drop
cycle.  (The source comments on this: "Note that this might call
parent.extend_from_slice, so be aware of potential reallocations".)  The
bound does hold in the steady state the arena is designed for, where every
`get` takes the arena's entire current length. -/

/-- One full client cycle: `get(size)` followed by dropping the returned
`BufferRef` ("each returned lease is fully dropped (not frozen) before the
next get"). -/
def arenaCycle (st : ArenaState) (size : Nat) : ArenaState :=
  bufferRefDrop (arenaGet st size).1

/-- A sequence of fully dropped `get` calls. -/
def runCycles (st : ArenaState) (sizes : List Nat) : ArenaState :=
  sizes.foldl arenaCycle st

/-- The claim's bound: the number of sizes exceeding the running capacity
(each such size becoming the new capacity). -/
def specGrowthCount : Nat → List Nat → Nat
  | _, [] => 0
  | cap, s :: rest =>
      if cap < s then specGrowthCount s rest + 1 else specGrowthCount cap rest

/-- C8 counterexample. Starting from an arena of capacity 8, two
`get(4)`/drop cycles — no size ever exceeds the prior capacity, so the
claimed bound is 0 — perform one backing-region reallocation per cycle
(the drop's `unsplit` falls back to `extend_from_slice` because the
returned chunk precedes the arena's remaining view): 2 reallocations,
exceeding the claimed bound. -/
theorem arena_reallocs_exceed_growth_bound :
    (runCycles (arenaInit 8) [4, 4]).reallocs = 2 ∧
    specGrowthCount 8 [4, 4] = 0 ∧
    ¬((runCycles (arenaInit 8) [4, 4]).reallocs ≤ specGrowthCount 8 [4, 4]) := by
  refine ⟨by decide, rfl, by decide⟩

theorem arenaCycle_fit (a C na rl : Nat) :
    arenaCycle ⟨⟨a, 0, C, C⟩, C, none, [], na, rl⟩ C =
      ⟨⟨a, 0, C, C⟩, C, none, [], na, rl⟩ := by
  simp only [arenaCycle, arenaGet, Nat.lt_irrefl, if_false, bufferRefDrop,
    unsplitBack, Nat.sub_self, Nat.zero_add, if_true]

theorem arenaCycle_grow (a C na rl s : Nat) (h : C < s) :
    arenaCycle ⟨⟨a, 0, C, C⟩, C, none, [], na, rl⟩ s =
      ⟨⟨na, 0, s, s⟩, s, none, [], na + 1, rl + 1⟩ := by
  have hns : ¬(s - C ≤ C - C) := by omega
  have hsh : isShared ⟨⟨a, 0, C, C⟩, C, none, [], na, rl⟩ [] = false := rfl
  simp only [arenaCycle, arenaGet, if_pos h, bmReserve, hns, if_false, reserveInner,
    hsh, Bool.false_eq_true]
  have hA : ¬(C + (s - C) + 0 ≤ C) := by omega
  have hB : ¬(C + (s - C) ≤ C ∧ C ≤ 0) := by omega
  rw [if_neg hA, if_neg hB]
  have hcs : C + (s - C) = s := by omega
  simp only [hcs, bufferRefDrop, unsplitBack, Nat.sub_self, if_true, Nat.zero_add]

theorem runCycles_canonical (sizes : List Nat) :
    ∀ C a na rl, List.Chain (· ≤ ·) C sizes →
      (runCycles ⟨⟨a, 0, C, C⟩, C, none, [], na, rl⟩ sizes).reallocs =
        rl + specGrowthCount C sizes := by
  induction sizes with
  | nil => intro C a na rl _; rfl
  | cons s rest ih =>
      intro C a na rl hchain
      rcases hchain with _ | ⟨hCs, hrest⟩
      by_cases hlt : C < s
      · show (runCycles (arenaCycle ⟨⟨a, 0, C, C⟩, C, none, [], na, rl⟩ s) rest).reallocs = _
        rw [arenaCycle_grow a C na rl s hlt, ih s na (na + 1) (rl + 1) hrest]
        simp only [specGrowthCount, if_pos hlt]
        omega
      · have hCeq : C = s := Nat.le_antisymm hCs (Nat.le_of_not_lt hlt)
        subst hCeq
        show (runCycles (arenaCycle ⟨⟨a, 0, C, C⟩, C, none, [], na, rl⟩ C) rest).reallocs = _
        rw [arenaCycle_fit a C na rl, ih C a na rl hrest]
        simp only [specGrowthCount, if_neg hlt]

/-- C8 (amended). For sequences of fully dropped `get(size)` calls whose
sizes are nondecreasing and start at or above the arena's initial capacity
— in particular the steady state the arena is built for, a constant frame
size with the arena fully drained on each `get` — the number of
backing-region reallocations equals the number of sizes strictly exceeding
the prior capacity, independent of the number of calls.  (For other
sequences the bound can fail: returning a lease to a non-empty arena
reallocates per cycle, as the counterexample shows.) -/
theorem arena_reuse_bound_monotone (c : Nat) (sizes : List Nat)
    (hmono : List.Chain (· ≤ ·) c sizes) :
    (runCycles (arenaInit c) sizes).reallocs = specGrowthCount c sizes := by
  have hcan := runCycles_canonical sizes c 0 1 0 hmono
  simpa [arenaInit] using hcan

/-- Witness for C8 (amended) at a concrete input: three `get(4)` cycles from
an empty arena perform exactly one reallocation (the initial growth). -/
theorem arena_reuse_bound_monotone_witness :
    List.Chain (· ≤ ·) 0 [4, 4, 4] ∧
    (runCycles (arenaInit 0) [4, 4, 4]).reallocs = specGrowthCount 0 [4, 4, 4] :=
  ⟨by simp [List.chain_cons], arena_reuse_bound_monotone 0 [4, 4, 4] (by simp [List.chain_cons])⟩

end Fjarsyn
